import Mathlib

/-!
Shallow embedding of the MERN notes server (server/models/Note.js and
server/routes/notes.js plus the auth routes), for checking the
specification's claims about note scoping, listing, pagination,
statistics, login and password-reset behaviour.

Documents are embedded as Lean structures; a Mongo collection is a list
of documents; `findOne` with an equality filter is `List.find?` of the
corresponding boolean predicate; `save` on a fetched document replaces
the document with the same `_id` and runs the schema's pre-save hook
(which stamps `updatedAt`).  Timestamps are naturals.  Behaviour of the
store's text search is kept abstract as a predicate parameter.
-/

namespace MernNotes

/-- The fixed category enumeration of the note schema
(`enum: ['personal', 'work', 'creative', 'study']`). -/
inductive Category where
  | personal
  | work
  | creative
  | study
deriving DecidableEq, Repr

/-- A note document, after server/models/Note.js `noteSchema`.
`id` stands for Mongo's `_id`, `userId` for the owner reference. -/
structure Note where
  id : Nat
  title : String
  content : String
  category : Category
  tags : List String
  isPinned : Bool
  isArchived : Bool
  color : String
  userId : Nat
  createdAt : Nat
  updatedAt : Nat
deriving DecidableEq, Repr

/-- The JSON error envelope `{ error, message }` together with the HTTP
status the route answers with. -/
structure ErrorResponse where
  status : Nat
  error : String
  message : String
deriving DecidableEq, Repr

/-- JS `String.prototype.trim()`: strip leading and trailing
whitespace (kept structurally recursive so concrete inputs
evaluate). -/
def jsTrim (s : String) : String :=
  ⟨((s.data.dropWhile Char.isWhitespace).reverse.dropWhile
      Char.isWhitespace).reverse⟩

/-- The schema's pre-save hook: `this.updatedAt = Date.now()` before
every save (server/models/Note.js lines 82-85). -/
def preSave (now : Nat) (n : Note) : Note :=
  { n with updatedAt := now }

/-- The combined id-and-owner filter every per-note route passes to
`Note.findOne` / `Note.findOneAndDelete`:
`{ _id: req.params.id, userId: req.user._id }`. -/
def ownedPred (uid nid : Nat) (n : Note) : Bool :=
  n.id == nid && n.userId == uid

/-- `Note.findOne({ _id: nid, userId: uid })` over the collection. -/
def findOwned (db : List Note) (uid nid : Nat) : Option Note :=
  db.find? (ownedPred uid nid)

/-- `note.save()` after mutating a fetched document: the stored document
with the same `_id` is replaced. -/
def saveReplace (db : List Note) (n : Note) : List Note :=
  db.map (fun m => if m.id == n.id then n else m)

/-- 404 body of `GET /api/notes/:id` (routes lines 228-233). -/
def getNotFound : ErrorResponse :=
  { status := 404, error := "Note not found",
    message := "The requested note does not exist or you do not have permission to view it." }

/-- 404 body of `PUT /api/notes/:id` (routes lines 293-298). -/
def updateNotFound : ErrorResponse :=
  { status := 404, error := "Note not found",
    message := "The requested note does not exist or you do not have permission to update it." }

/-- 404 body of `DELETE /api/notes/:id` (routes lines 335-340). -/
def deleteNotFound : ErrorResponse :=
  { status := 404, error := "Note not found",
    message := "The requested note does not exist or you do not have permission to delete it." }

/-- 404 body of `POST /api/notes/:id/pin` and `/:id/archive`
(routes lines 366-371 and 400-405). -/
def toggleNotFound : ErrorResponse :=
  { status := 404, error := "Note not found",
    message := "The requested note does not exist or you do not have permission to modify it." }

/-- `GET /api/notes/:id` after auth and id validation: a single
`findOne` on the combined id-and-owner filter, 404 when it misses. -/
def getNoteById (db : List Note) (uid nid : Nat) : Except ErrorResponse Note :=
  match findOwned db uid nid with
  | none => .error getNotFound
  | some n => .ok n

/-- The optional fields of a `PUT /api/notes/:id` body, each `undefined`
when absent. -/
structure UpdateFields where
  title : Option String := none
  content : Option String := none
  category : Option Category := none
  tags : Option (List String) := none
  isPinned : Option Bool := none
  isArchived : Option Bool := none
  color : Option String := none
deriving DecidableEq, Repr

/-- The `if (field !== undefined)` cascade of the update route (lines
301-307): each supplied field overwrites, title/content trimmed, tags
trimmed then emptied-out tags dropped. -/
def applyUpdateFields (f : UpdateFields) (n : Note) : Note :=
  let n := match f.title with
    | some t => { n with title := jsTrim t }
    | none => n
  let n := match f.content with
    | some c => { n with content := jsTrim c }
    | none => n
  let n := match f.category with
    | some c => { n with category := c }
    | none => n
  let n := match f.tags with
    | some ts => { n with tags := (ts.map jsTrim).filter (fun t => t ≠ "") }
    | none => n
  let n := match f.isPinned with
    | some b => { n with isPinned := b }
    | none => n
  let n := match f.isArchived with
    | some b => { n with isArchived := b }
    | none => n
  match f.color with
  | some c => { n with color := c }
  | none => n

/-- `PUT /api/notes/:id` after validation: find by id-and-owner, apply
the supplied fields, save (running the pre-save hook). Returns the
updated note and the collection after the save. -/
def updateNote (db : List Note) (uid nid : Nat) (f : UpdateFields) (now : Nat) :
    Except ErrorResponse (Note × List Note) :=
  match findOwned db uid nid with
  | none => .error updateNotFound
  | some n =>
      let n := preSave now (applyUpdateFields f n)
      .ok (n, saveReplace db n)

/-- `DELETE /api/notes/:id`: `findOneAndDelete` on the combined filter;
on success answers `{ id }` and the collection loses that document. -/
def deleteNote (db : List Note) (uid nid : Nat) :
    Except ErrorResponse (Nat × List Note) :=
  match findOwned db uid nid with
  | none => .error deleteNotFound
  | some n => .ok (n.id, db.eraseP (ownedPred uid nid))

/-- The `{ id, isPinned }` (resp. `{ id, isArchived }`) payload the
toggle routes answer with. -/
structure ToggleView where
  id : Nat
  flag : Bool
deriving DecidableEq, Repr

/-- `POST /api/notes/:id/pin`: find by id-and-owner, negate `isPinned`,
save; answers the id and the new flag. -/
def togglePin (db : List Note) (uid nid : Nat) (now : Nat) :
    Except ErrorResponse (ToggleView × List Note) :=
  match findOwned db uid nid with
  | none => .error toggleNotFound
  | some n =>
      let n := preSave now { n with isPinned := !n.isPinned }
      .ok ({ id := n.id, flag := n.isPinned }, saveReplace db n)

/-- `POST /api/notes/:id/archive`: find by id-and-owner, negate
`isArchived`, save; answers the id and the new flag. -/
def toggleArchive (db : List Note) (uid nid : Nat) (now : Nat) :
    Except ErrorResponse (ToggleView × List Note) :=
  match findOwned db uid nid with
  | none => .error toggleNotFound
  | some n =>
      let n := preSave now { n with isArchived := !n.isArchived }
      .ok ({ id := n.id, flag := n.isArchived }, saveReplace db n)

/-- An owned note exists: the proposition the combined filter decides. -/
def OwnedNoteExists (db : List Note) (uid nid : Nat) : Prop :=
  ∃ n ∈ db, n.id = nid ∧ n.userId = uid

lemma findOwned_eq_none_iff (db : List Note) (uid nid : Nat) :
    findOwned db uid nid = none ↔ ¬ OwnedNoteExists db uid nid := by
  simp [findOwned, OwnedNoteExists, List.find?_eq_none, ownedPred]

lemma ownedNoteExists_of_findOwned {db : List Note} {uid nid : Nat} {n : Note}
    (h : findOwned db uid nid = some n) : OwnedNoteExists db uid nid := by
  have hm := List.mem_of_find?_eq_some h
  have hp := List.find?_some h
  simp only [ownedPred, Bool.and_eq_true, beq_iff_eq] at hp
  exact ⟨n, hm, hp.1, hp.2⟩

/-- C1: every per-note operation (GetById, Update, Delete, TogglePin,
ToggleArchive) by user `uid` on note id `nid` answers its 404 body
exactly when no note exists whose id is `nid` and whose owner is `uid`;
each operation performs one `findOne` on the combined id-and-owner
filter (`findOwned`), so a missing id and a note owned by another user
produce the very same error value. -/
theorem per_note_notFound_iff_no_owned_note
    (db : List Note) (uid nid now : Nat) (f : UpdateFields) :
    (getNoteById db uid nid = .error getNotFound ↔ ¬ OwnedNoteExists db uid nid)
    ∧ (updateNote db uid nid f now = .error updateNotFound ↔ ¬ OwnedNoteExists db uid nid)
    ∧ (deleteNote db uid nid = .error deleteNotFound ↔ ¬ OwnedNoteExists db uid nid)
    ∧ (togglePin db uid nid now = .error toggleNotFound ↔ ¬ OwnedNoteExists db uid nid)
    ∧ (toggleArchive db uid nid now = .error toggleNotFound ↔ ¬ OwnedNoteExists db uid nid) := by
  refine ⟨?_, ?_, ?_, ?_, ?_⟩ <;>
  · cases h : findOwned db uid nid with
    | none =>
        simp only [getNoteById, updateNote, deleteNote, togglePin, toggleArchive, h]
        exact iff_of_true trivial ((findOwned_eq_none_iff db uid nid).mp h)
    | some n =>
        simp only [getNoteById, updateNote, deleteNote, togglePin, toggleArchive, h]
        exact iff_of_false (by simp) (not_not_intro (ownedNoteExists_of_findOwned h))

lemma applyUpdateFields_eq (f : UpdateFields) (n : Note) :
    applyUpdateFields f n =
      { n with
        title := match f.title with | some t => jsTrim t | none => n.title,
        content := match f.content with | some c => jsTrim c | none => n.content,
        category := match f.category with | some c => c | none => n.category,
        tags := match f.tags with
          | some ts => (ts.map jsTrim).filter (fun t => t ≠ "")
          | none => n.tags,
        isPinned := match f.isPinned with | some b => b | none => n.isPinned,
        isArchived := match f.isArchived with | some b => b | none => n.isArchived,
        color := match f.color with | some c => c | none => n.color } := by
  obtain ⟨ft, fc, fca, fts, fp, fa, fco⟩ := f
  cases ft <;> cases fc <;> cases fca <;> cases fts <;> cases fp <;> cases fa <;>
    cases fco <;> rfl

/-- C6: `PUT /api/notes/:id` on an existing owned note changes only the
body's supplied fields: each of the seven updatable fields that is
absent keeps its stored value, each supplied one is overwritten; in
particular a body of only `{ isPinned: true }` leaves title, content,
category, tags, isArchived and color untouched, flips only `isPinned`
(the pre-save hook stamps `updatedAt`). -/
theorem update_changes_only_supplied_fields
    (db : List Note) (uid nid now : Nat) (f : UpdateFields) (n : Note)
    (h : findOwned db uid nid = some n) :
    (∃ db2, updateNote db uid nid f now = .ok (preSave now (applyUpdateFields f n), db2))
    ∧ (f.title = none → (preSave now (applyUpdateFields f n)).title = n.title)
    ∧ (f.content = none → (preSave now (applyUpdateFields f n)).content = n.content)
    ∧ (f.category = none → (preSave now (applyUpdateFields f n)).category = n.category)
    ∧ (f.tags = none → (preSave now (applyUpdateFields f n)).tags = n.tags)
    ∧ (f.isPinned = none → (preSave now (applyUpdateFields f n)).isPinned = n.isPinned)
    ∧ (f.isArchived = none → (preSave now (applyUpdateFields f n)).isArchived = n.isArchived)
    ∧ (f.color = none → (preSave now (applyUpdateFields f n)).color = n.color)
    ∧ (∀ b, f.isPinned = some b → (preSave now (applyUpdateFields f n)).isPinned = b)
    ∧ updateNote db uid nid { isPinned := some true } now =
        .ok ({ n with isPinned := true, updatedAt := now },
             saveReplace db { n with isPinned := true, updatedAt := now }) := by
  refine ⟨⟨saveReplace db (preSave now (applyUpdateFields f n)), ?_⟩,
    ?_, ?_, ?_, ?_, ?_, ?_, ?_, ?_, ?_⟩
  · simp [updateNote, h]
  all_goals
    first
    | (intro hf; simp [applyUpdateFields_eq, preSave, hf])
    | (intro b hf; simp [applyUpdateFields_eq, preSave, hf])
    | (simp [updateNote, h, applyUpdateFields_eq, preSave])

/-- A sample stored note used to instantiate hypotheses at concrete inputs. -/
def sampleNote : Note :=
  { id := 5, title := "groceries", content := "milk", category := .personal,
    tags := ["home"], isPinned := false, isArchived := false,
    color := "#ffffff", userId := 1, createdAt := 3, updatedAt := 4 }

theorem update_changes_only_supplied_fields_witness :
    ∃ db2, updateNote [sampleNote] 1 5 { isPinned := some true } 9 =
      .ok ({ sampleNote with isPinned := true, updatedAt := 9 }, db2) := by
  obtain ⟨-, -, -, -, -, -, -, -, -, h10⟩ :=
    update_changes_only_supplied_fields [sampleNote] 1 5 9
      { isPinned := some true } sampleNote rfl
  exact ⟨_, h10⟩

lemma map_id_saveReplace (db : List Note) (n : Note) :
    (saveReplace db n).map Note.id = db.map Note.id := by
  induction db with
  | nil => rfl
  | cons m t ih =>
      simp only [saveReplace, List.map_cons] at ih ⊢
      refine congrArg₂ _ ?_ ih
      by_cases hm : m.id == n.id
      · simp [hm, (beq_iff_eq.mp hm).symm]
      · simp [hm]

lemma findOwned_saveReplace {db : List Note} {uid nid : Nat} {n n' : Note}
    (hnodup : (db.map Note.id).Nodup)
    (h : findOwned db uid nid = some n)
    (hid : n'.id = n.id) (huid : n'.userId = n.userId) :
    findOwned (saveReplace db n') uid nid = some n' := by
  induction db with
  | nil => simp [findOwned] at h
  | cons m t ih =>
      have hp : ownedPred uid nid n = true := by
        have := List.find?_some h
        simpa [findOwned] using this
      simp only [findOwned, saveReplace, List.map_cons, List.nodup_cons] at hnodup h ⊢
      cases hm : ownedPred uid nid m with
      | true =>
          rw [List.find?_cons_of_pos _ hm] at h
          have hmn : m = n := by injection h
          subst hmn
          have hcond : (m.id == n'.id) = true := by simp [hid]
          rw [if_pos hcond]
          have hp' : ownedPred uid nid n' = true := by
            simp only [ownedPred, Bool.and_eq_true, beq_iff_eq] at hp ⊢
            exact ⟨hid.trans hp.1, huid.trans hp.2⟩
          rw [List.find?_cons_of_pos _ hp']
      | false =>
          rw [List.find?_cons_of_neg _ (by simp [hm])] at h
          have hnmem : n.id ∈ t.map Note.id :=
            List.mem_map_of_mem Note.id (List.mem_of_find?_eq_some h)
          have hne : (m.id == n'.id) = false := by
            rw [hid]
            refine beq_eq_false_iff_ne.mpr (fun he => ?_)
            exact hnodup.1 (he ▸ hnmem)
          rw [if_neg (by simp [hne])]
          rw [List.find?_cons_of_neg _ (by simp [hm])]
          exact ih hnodup.2 h

/-- C10: `POST /:id/pin` and `POST /:id/archive` on an owned note negate
exactly their one boolean flag (the pre-save hook touching only
`updatedAt`), answer the note id with the new flag value, and are
involutions: toggling twice restores the stored note except for
`updatedAt`.  The id-uniqueness hypothesis is the store's `_id`
invariant. -/
theorem toggle_twice_restores_flag
    (db : List Note) (uid nid t1 t2 : Nat) (n : Note)
    (hnodup : (db.map Note.id).Nodup)
    (h : findOwned db uid nid = some n) :
    (∃ db1 db2,
      togglePin db uid nid t1 = .ok ({ id := n.id, flag := !n.isPinned }, db1)
      ∧ findOwned db1 uid nid = some { n with isPinned := !n.isPinned, updatedAt := t1 }
      ∧ togglePin db1 uid nid t2 = .ok ({ id := n.id, flag := n.isPinned }, db2)
      ∧ findOwned db2 uid nid = some { n with updatedAt := t2 })
    ∧ (∃ db1 db2,
      toggleArchive db uid nid t1 = .ok ({ id := n.id, flag := !n.isArchived }, db1)
      ∧ findOwned db1 uid nid = some { n with isArchived := !n.isArchived, updatedAt := t1 }
      ∧ toggleArchive db1 uid nid t2 = .ok ({ id := n.id, flag := n.isArchived }, db2)
      ∧ findOwned db2 uid nid = some { n with updatedAt := t2 }) := by
  constructor
  · have e1 : togglePin db uid nid t1 =
        .ok ({ id := n.id, flag := !n.isPinned },
             saveReplace db { n with isPinned := !n.isPinned, updatedAt := t1 }) := by
      simp [togglePin, h, preSave]
    have h1 : findOwned (saveReplace db { n with isPinned := !n.isPinned, updatedAt := t1 })
        uid nid = some { n with isPinned := !n.isPinned, updatedAt := t1 } :=
      findOwned_saveReplace hnodup h rfl rfl
    have hnodup1 :
        ((saveReplace db { n with isPinned := !n.isPinned, updatedAt := t1 }).map
          Note.id).Nodup := by
      rw [map_id_saveReplace]; exact hnodup
    refine ⟨saveReplace db { n with isPinned := !n.isPinned, updatedAt := t1 },
      saveReplace (saveReplace db { n with isPinned := !n.isPinned, updatedAt := t1 })
        { n with updatedAt := t2 }, e1, h1, ?_, ?_⟩
    · simp [togglePin, h1, preSave, Bool.not_not]
    · exact findOwned_saveReplace hnodup1 h1 rfl rfl
  · have e1 : toggleArchive db uid nid t1 =
        .ok ({ id := n.id, flag := !n.isArchived },
             saveReplace db { n with isArchived := !n.isArchived, updatedAt := t1 }) := by
      simp [toggleArchive, h, preSave]
    have h1 : findOwned (saveReplace db { n with isArchived := !n.isArchived, updatedAt := t1 })
        uid nid = some { n with isArchived := !n.isArchived, updatedAt := t1 } :=
      findOwned_saveReplace hnodup h rfl rfl
    have hnodup1 :
        ((saveReplace db { n with isArchived := !n.isArchived, updatedAt := t1 }).map
          Note.id).Nodup := by
      rw [map_id_saveReplace]; exact hnodup
    refine ⟨saveReplace db { n with isArchived := !n.isArchived, updatedAt := t1 },
      saveReplace (saveReplace db { n with isArchived := !n.isArchived, updatedAt := t1 })
        { n with updatedAt := t2 }, e1, h1, ?_, ?_⟩
    · simp [toggleArchive, h1, preSave, Bool.not_not]
    · exact findOwned_saveReplace hnodup1 h1 rfl rfl

theorem toggle_twice_restores_flag_witness :
    ∃ db1 db2,
      togglePin [sampleNote] 1 5 10 = .ok ({ id := 5, flag := true }, db1)
      ∧ togglePin db1 1 5 11 = .ok ({ id := 5, flag := false }, db2) := by
  obtain ⟨⟨db1, db2, e1, -, e2, -⟩, -⟩ :=
    toggle_twice_restores_flag [sampleNote] 1 5 10 11 sampleNote (by decide) rfl
  exact ⟨db1, db2, e1, e2⟩

/-- The sort keys `GET /api/notes` accepts
(`sortBy` validated `isIn(['createdAt', 'updatedAt', 'title'])`). -/
inductive SortField where
  | createdAt
  | updatedAt
  | title
deriving DecidableEq, Repr

/-- The sort direction query value (`asc` or `desc`). -/
inductive SortDir where
  | asc
  | desc
deriving DecidableEq, Repr

/-- The `options` object `findUserNotes` destructures, with its JS
destructuring defaults (server/models/Note.js lines 103-112).
`sortOrder` is the Mongo direction, `-1` descending. -/
structure FindOptions where
  category : Option Category := none
  isPinned : Option Bool := none
  isArchived : Bool := false
  search : Option String := none
  limit : Nat := 50
  skip : Nat := 0
  sortBy : SortField := .updatedAt
  sortOrder : Int := -1
deriving DecidableEq, Repr

/-- The validated query string of `GET /api/notes`: every parameter may
be absent (`undefined`).  Validation guarantees `page ≥ 1` and
`1 ≤ limit ≤ 100` whenever present. -/
structure ListQuery where
  page : Option Nat := none
  limit : Option Nat := none
  category : Option Category := none
  isPinned : Option Bool := none
  isArchived : Option Bool := none
  search : Option String := none
  sortBy : Option SortField := none
  sortOrder : Option SortDir := none
deriving DecidableEq, Repr

/-- A Mongo filter document over the notes collection: always carries
`userId` and `isArchived`, optionally `category`, `isPinned`, and a
`$text: { $search: s }` predicate. -/
structure NoteQueryFilter where
  userId : Nat
  isArchived : Bool
  category : Option Category := none
  isPinned : Option Bool := none
  search : Option String := none
deriving DecidableEq, Repr

/-- The filter document `findUserNotes` builds (Note.js lines 114-120):
`{ userId, isArchived }`, then `category` if truthy, `isPinned` if a
boolean, `$text` if `search` is truthy (a non-empty string). -/
def findUserNotesFilter (uid : Nat) (opts : FindOptions) : NoteQueryFilter :=
  { userId := uid,
    isArchived := opts.isArchived,
    category := opts.category,
    isPinned := opts.isPinned,
    search := match opts.search with
      | some s => if s = "" then none else some s
      | none => none }

/-- The independent count filter the route builds for pagination
(routes lines 157-160): `{ userId, isArchived: isArchived === 'true' }`,
then `category`, `isPinned`, `$text` under the same conditions. -/
def countQueryFilter (uid : Nat) (q : ListQuery) : NoteQueryFilter :=
  { userId := uid,
    isArchived := q.isArchived.getD false,
    category := q.category,
    isPinned := q.isPinned,
    search := match q.search with
      | some s => if s = "" then none else some s
      | none => none }

/-- Whether a stored note satisfies a filter document.  The store's
`$text` matching is abstract: `tm s n` stands for "note `n` matches
search string `s`". -/
def filterMatches (tm : String → Note → Bool) (flt : NoteQueryFilter) (n : Note) : Bool :=
  n.userId == flt.userId && n.isArchived == flt.isArchived
    && (match flt.category with | some c => n.category == c | none => true)
    && (match flt.isPinned with | some b => n.isPinned == b | none => true)
    && (match flt.search with | some s => tm s n | none => true)

/-- The `.sort({ [sortBy]: sortOrder })` comparator: ascending on the
selected key, reversed when the direction is negative. -/
def noteLE (sb : SortField) (dir : Int) (a b : Note) : Bool :=
  let le :=
    match sb with
    | .createdAt => decide (a.createdAt ≤ b.createdAt)
    | .updatedAt => decide (a.updatedAt ≤ b.updatedAt)
    | .title => decide (a.title ≤ b.title)
  let ge :=
    match sb with
    | .createdAt => decide (b.createdAt ≤ a.createdAt)
    | .updatedAt => decide (b.updatedAt ≤ a.updatedAt)
    | .title => decide (b.title ≤ a.title)
  if dir < 0 then ge else le

/-- `Note.findUserNotes(userId, options)`: filter by the built query
document, sort, then page (`skip` before `limit`, as the store applies
them). -/
def findUserNotes (tm : String → Note → Bool) (db : List Note) (uid : Nat)
    (opts : FindOptions) : List Note :=
  (((db.filter (filterMatches tm (findUserNotesFilter uid opts))).mergeSort
      (noteLE opts.sortBy opts.sortOrder)).drop opts.skip).take opts.limit

/-- `Note.countDocuments(filter)`. -/
def countDocuments (tm : String → Note → Bool) (db : List Note)
    (flt : NoteQueryFilter) : Nat :=
  (db.filter (filterMatches tm flt)).length

/-- The `options` object the route passes to `findUserNotes`
(routes lines 143-152), with the route's query-string defaults
(`page = 1`, `limit = 20`, `isArchived = 'false'`, `sortBy =
'updatedAt'`, `sortOrder = 'desc'`). -/
def routeOptions (q : ListQuery) : FindOptions :=
  { category := q.category,
    isPinned := q.isPinned,
    isArchived := q.isArchived.getD false,
    search := q.search,
    limit := q.limit.getD 20,
    skip := (q.page.getD 1 - 1) * q.limit.getD 20,
    sortBy := q.sortBy.getD .updatedAt,
    sortOrder := if q.sortOrder.getD .desc == .desc then -1 else 1 }

/-- `Math.ceil(a / b)` for natural `a` and positive natural `b`. -/
def jsCeilDiv (a b : Nat) : Nat := (a + b - 1) / b

/-- The `pagination` object of the listing response (routes lines
169-175). -/
structure PaginationView where
  currentPage : Nat
  totalPages : Nat
  totalNotes : Nat
  hasNextPage : Bool
  hasPrevPage : Bool
deriving DecidableEq, Repr

/-- `GET /api/notes` after auth and query validation: the page of notes
from `findUserNotes` plus pagination metadata computed from the
independent count query. -/
def getNotes (tm : String → Note → Bool) (db : List Note) (uid : Nat)
    (q : ListQuery) : List Note × PaginationView :=
  let page := q.page.getD 1
  let limit := q.limit.getD 20
  let notes := findUserNotes tm db uid (routeOptions q)
  let totalNotes := countDocuments tm db (countQueryFilter uid q)
  let totalPages := jsCeilDiv totalNotes limit
  (notes,
   { currentPage := page,
     totalPages := totalPages,
     totalNotes := totalNotes,
     hasNextPage := decide (page < totalPages),
     hasPrevPage := decide (page > 1) })

lemma mem_findUserNotes {tm : String → Note → Bool} {db : List Note} {uid : Nat}
    {opts : FindOptions} {n : Note} (h : n ∈ findUserNotes tm db uid opts) :
    filterMatches tm (findUserNotesFilter uid opts) n = true := by
  unfold findUserNotes at h
  exact (List.mem_filter.mp (List.mem_mergeSort.mp
    (List.mem_of_mem_drop (List.mem_of_mem_take h)))).2

lemma owner_archived_of_filterMatches {tm : String → Note → Bool}
    {flt : NoteQueryFilter} {n : Note} (h : filterMatches tm flt n = true) :
    n.userId = flt.userId ∧ n.isArchived = flt.isArchived := by
  simp only [filterMatches, Bool.and_eq_true, beq_iff_eq] at h
  exact ⟨h.1.1.1.1, h.1.1.1.2⟩

/-- C2: a `GET /api/notes` with `isArchived` unspecified filters on
`isArchived = false` (the route's `'false'` default), so no archived
note ever appears in the page; with `isArchived=true` every returned
note is archived and owned by the requesting user. -/
theorem list_archived_scoping (tm : String → Note → Bool) (db : List Note)
    (uid : Nat) (q : ListQuery) :
    (q.isArchived = none →
      ∀ n ∈ (getNotes tm db uid q).1, n.isArchived = false)
    ∧ (q.isArchived = some true →
      ∀ n ∈ (getNotes tm db uid q).1, n.isArchived = true ∧ n.userId = uid) := by
  constructor
  · intro harch n hn
    have hm := owner_archived_of_filterMatches (mem_findUserNotes hn)
    simpa [findUserNotesFilter, routeOptions, harch] using hm.2
  · intro harch n hn
    have hm := owner_archived_of_filterMatches (mem_findUserNotes hn)
    simp only [findUserNotesFilter, routeOptions, harch] at hm
    exact ⟨by simpa using hm.2, hm.1⟩

lemma countFilter_eq_listingFilter (uid : Nat) (q : ListQuery) :
    countQueryFilter uid q = findUserNotesFilter uid (routeOptions q) := by
  simp [countQueryFilter, findUserNotesFilter, routeOptions]

/-- C3: pagination of `GET /api/notes`: `skip = (page-1)*limit`; the
total is counted with the same filter document as the listing
(owner, isArchived, category, isPinned, search — no skip/limit);
`totalPages` is the ceiling of `totalNotes/limit` (characterized
arithmetically); `hasNextPage = page < totalPages`,
`hasPrevPage = page > 1`; and the page holds
`min limit (totalMatching - skip)` notes. -/
theorem pagination_correct (tm : String → Note → Bool) (db : List Note)
    (uid : Nat) (q : ListQuery) (hlim : 0 < q.limit.getD 20) :
    (routeOptions q).skip = (q.page.getD 1 - 1) * q.limit.getD 20
    ∧ (getNotes tm db uid q).2.currentPage = q.page.getD 1
    ∧ (getNotes tm db uid q).2.totalNotes
        = (db.filter (filterMatches tm (findUserNotesFilter uid (routeOptions q)))).length
    ∧ (getNotes tm db uid q).2.totalNotes
        ≤ (getNotes tm db uid q).2.totalPages * q.limit.getD 20
    ∧ (getNotes tm db uid q).2.totalPages * q.limit.getD 20
        < (getNotes tm db uid q).2.totalNotes + q.limit.getD 20
    ∧ (getNotes tm db uid q).2.hasNextPage
        = decide (q.page.getD 1 < (getNotes tm db uid q).2.totalPages)
    ∧ (getNotes tm db uid q).2.hasPrevPage = decide (q.page.getD 1 > 1)
    ∧ (getNotes tm db uid q).1.length
        = min (q.limit.getD 20)
            ((db.filter (filterMatches tm (findUserNotesFilter uid (routeOptions q)))).length
              - (q.page.getD 1 - 1) * q.limit.getD 20) := by
  refine ⟨rfl, rfl, ?_, ?_, ?_, rfl, rfl, ?_⟩
  · show countDocuments tm db (countQueryFilter uid q) = _
    rw [countFilter_eq_listingFilter]
    rfl
  · show countDocuments tm db (countQueryFilter uid q)
      ≤ jsCeilDiv (countDocuments tm db (countQueryFilter uid q)) (q.limit.getD 20)
        * q.limit.getD 20
    unfold jsCeilDiv
    have hd := Nat.div_add_mod'
      (countDocuments tm db (countQueryFilter uid q) + q.limit.getD 20 - 1) (q.limit.getD 20)
    have hr := Nat.mod_lt
      (countDocuments tm db (countQueryFilter uid q) + q.limit.getD 20 - 1) hlim
    omega
  · show jsCeilDiv (countDocuments tm db (countQueryFilter uid q)) (q.limit.getD 20)
        * q.limit.getD 20
      < countDocuments tm db (countQueryFilter uid q) + q.limit.getD 20
    unfold jsCeilDiv
    have hA := Nat.div_mul_le_self
      (countDocuments tm db (countQueryFilter uid q) + q.limit.getD 20 - 1) (q.limit.getD 20)
    omega
  · show (findUserNotes tm db uid (routeOptions q)).length = _
    unfold findUserNotes
    rw [List.length_take, List.length_drop, List.length_mergeSort]
    rfl

/-- The notes used to instantiate the pagination example: 25 notes all
owned by user 1, none archived. -/
def pageNote (i : Nat) : Note :=
  { id := i, title := "", content := "", category := .personal, tags := [],
    isPinned := false, isArchived := false, color := "#ffffff",
    userId := 1, createdAt := i, updatedAt := i }

def db25 : List Note := (List.range 25).map pageNote

def q3 : ListQuery := { page := some 3, limit := some 10 }

theorem pagination_correct_witness :
    0 < q3.limit.getD 20
    ∧ (getNotes (fun _ _ => true) db25 1 q3).1.length = 5
    ∧ (getNotes (fun _ _ => true) db25 1 q3).2.totalPages = 3
    ∧ (getNotes (fun _ _ => true) db25 1 q3).2.hasNextPage = false
    ∧ (getNotes (fun _ _ => true) db25 1 q3).2.hasPrevPage = true := by
  obtain ⟨-, -, -, -, -, h6, h7, h8⟩ :=
    pagination_correct (fun _ _ => true) db25 1 q3 (by decide)
  refine ⟨by decide, ?_, by decide, ?_, ?_⟩
  · rw [h8]; decide
  · rw [h6]; decide
  · rw [h7]; decide

/-- The weighted text index declared on the note schema
(server/models/Note.js lines 69-79). -/
structure TextIndexWeights where
  title : Nat
  content : Nat
  tags : Nat
deriving DecidableEq, Repr

def noteTextIndexWeights : TextIndexWeights :=
  { title := 10, content := 5, tags := 8 }

/-- C9: the text index weights title, tags and content in proportion
10:8:5 (title highest, tags second, content lowest), and the listing
and the pagination count carry the very same `$text` predicate for
every request. -/
theorem text_search_weights_and_shared_predicate :
    noteTextIndexWeights.title = 10
    ∧ noteTextIndexWeights.tags = 8
    ∧ noteTextIndexWeights.content = 5
    ∧ noteTextIndexWeights.tags < noteTextIndexWeights.title
    ∧ noteTextIndexWeights.content < noteTextIndexWeights.tags
    ∧ ∀ (uid : Nat) (q : ListQuery),
        (countQueryFilter uid q).search
          = (findUserNotesFilter uid (routeOptions q)).search := by
  refine ⟨rfl, rfl, rfl, by decide, by decide, fun uid q => ?_⟩
  rw [countFilter_eq_listingFilter]

/-- The `categories` object of the statistics payload: all four
enumeration keys are always present. -/
structure CategoryCounts where
  personal : Nat
  work : Nat
  creative : Nat
  study : Nat
deriving DecidableEq, Repr

/-- The statistics document built by the aggregation's `$project`. -/
structure UserStats where
  totalNotes : Nat
  pinnedNotes : Nat
  categories : CategoryCounts
deriving DecidableEq, Repr

/-- `Note.getUserStats` (Note.js lines 129-186): `$match` on owner and
`isArchived: false`; `$group` with `_id: null` summing 1 for
`totalNotes`, summing `$cond [$eq isPinned true] 1 0` for
`pinnedNotes`, and pushing every `category` (an empty match produces
no group, so the pipeline answers an empty array); `$project` turning
the pushed list into the four per-category `$filter` sizes. -/
def getUserStats (db : List Note) (uid : Nat) : List UserStats :=
  match db.filter (fun n => n.userId == uid && n.isArchived == false) with
  | [] => []
  | matched =>
      let categoryCounts := matched.map Note.category
      [{ totalNotes := (matched.map (fun _ => 1)).sum,
         pinnedNotes := (matched.map (fun n => if n.isPinned == true then 1 else 0)).sum,
         categories :=
           { personal := (categoryCounts.filter (fun c => c == Category.personal)).length,
             work := (categoryCounts.filter (fun c => c == Category.work)).length,
             creative := (categoryCounts.filter (fun c => c == Category.creative)).length,
             study := (categoryCounts.filter (fun c => c == Category.study)).length } }]

/-- The all-zero fallback object of `GET /api/notes/stats`
(routes lines 197-206). -/
def zeroStats : UserStats :=
  { totalNotes := 0, pinnedNotes := 0,
    categories := { personal := 0, work := 0, creative := 0, study := 0 } }

/-- `GET /api/notes/stats`: `stats[0] || zero-shape`. -/
def getStats (db : List Note) (uid : Nat) : UserStats :=
  match getUserStats db uid with
  | [] => zeroStats
  | s :: _ => s

/-- The user's non-archived notes, the population of the statistics. -/
def nonArchivedOwned (db : List Note) (uid : Nat) : List Note :=
  db.filter (fun n => n.userId == uid && n.isArchived == false)

lemma sum_map_one (l : List Note) : (l.map (fun _ => (1 : Nat))).sum = l.length := by
  induction l <;> simp [*, Nat.add_comm]

lemma sum_map_pinned (l : List Note) :
    (l.map (fun n => if n.isPinned == true then (1 : Nat) else 0)).sum
      = (l.filter (fun n => n.isPinned == true)).length := by
  induction l with
  | nil => rfl
  | cons h t ih =>
      simp only [List.map_cons, List.sum_cons, List.filter_cons]
      cases hp : (h.isPinned == true) with
      | false =>
          rw [if_neg (by simp), if_neg (by simp), ih]
          omega
      | true =>
          rw [if_pos rfl, if_pos rfl, List.length_cons, ih]
          omega

lemma length_filter_category (l : List Note) (c : Category) :
    ((l.map Note.category).filter (fun x => x == c)).length
      = (l.filter (fun n => n.category == c)).length := by
  induction l with
  | nil => rfl
  | cons h t ih =>
      simp only [List.map_cons, List.filter_cons]
      cases hc : (h.category == c) with
      | false => rw [if_neg (by simp), if_neg (by simp), ih]
      | true => rw [if_pos rfl, if_pos rfl, List.length_cons, List.length_cons, ih]

/-- C4: the statistics are computed only over the user's non-archived
notes: `totalNotes` is their count, `pinnedNotes` the count of the
pinned ones among them, and every one of the four category keys is
present with its count; with zero qualifying notes the route answers
exactly the all-zero shape (the fallback object), never an
empty/null result — `getStats` is total. -/
theorem stats_zero_filled_counts (db : List Note) (uid : Nat) :
    (getStats db uid).totalNotes = (nonArchivedOwned db uid).length
    ∧ (getStats db uid).pinnedNotes
        = ((nonArchivedOwned db uid).filter (fun n => n.isPinned == true)).length
    ∧ (getStats db uid).categories.personal
        = ((nonArchivedOwned db uid).filter
            (fun n => n.category == Category.personal)).length
    ∧ (getStats db uid).categories.work
        = ((nonArchivedOwned db uid).filter
            (fun n => n.category == Category.work)).length
    ∧ (getStats db uid).categories.creative
        = ((nonArchivedOwned db uid).filter
            (fun n => n.category == Category.creative)).length
    ∧ (getStats db uid).categories.study
        = ((nonArchivedOwned db uid).filter
            (fun n => n.category == Category.study)).length
    ∧ (nonArchivedOwned db uid = [] → getStats db uid = zeroStats)
    ∧ zeroStats =
        { totalNotes := 0, pinnedNotes := 0,
          categories := { personal := 0, work := 0, creative := 0, study := 0 } } := by
  unfold getStats getUserStats nonArchivedOwned
  cases hm : db.filter (fun n => n.userId == uid && n.isArchived == false) with
  | nil => simp [zeroStats]
  | cons a t =>
      refine ⟨?_, ?_, ?_, ?_, ?_, ?_, fun hcontra => absurd hcontra (List.cons_ne_nil a t), rfl⟩
      · show (List.map (fun _ => 1) (a :: t)).sum = (a :: t).length
        rw [sum_map_one]
      · show (List.map (fun n => if n.isPinned == true then 1 else 0) (a :: t)).sum
          = (List.filter (fun n => n.isPinned == true) (a :: t)).length
        rw [sum_map_pinned]
      · show (List.filter (fun c => c == Category.personal)
            (List.map Note.category (a :: t))).length = _
        rw [length_filter_category]
      · show (List.filter (fun c => c == Category.work)
            (List.map Note.category (a :: t))).length = _
        rw [length_filter_category]
      · show (List.filter (fun c => c == Category.creative)
            (List.map Note.category (a :: t))).length = _
        rw [length_filter_category]
      · show (List.filter (fun c => c == Category.study)
            (List.map Note.category (a :: t))).length = _
        rw [length_filter_category]

/-- A user document.  `password` holds the stored salted hash (the
login route selects it with `.select('+password')`). -/
structure User where
  id : Nat
  firstName : String
  lastName : String
  email : String
  password : String
  isActive : Bool
  lastLogin : Option Nat
deriving DecidableEq, Repr

/-- Modelled from the spec: `models/User.js` is not among the
repository's files (the auth routes only call it).  The spec says
emails are stored lowercased and matched case-insensitively, so
`findByEmail` finds the first user whose stored email equals the
lowercased query address. -/
def findByEmail (users : List User) (email : String) : Option User :=
  users.find? (fun u => u.email == email.toLower)

/-- 400 body for a failed login, shared verbatim by the missing-user
and wrong-password branches (routes lines 538-543 and 556-561). -/
def invalidCredentials : ErrorResponse :=
  { status := 400, error := "Invalid credentials",
    message := "Invalid email or password." }

/-- 400 body for a login against an inactive account
(routes lines 546-551). -/
def accountDeactivated : ErrorResponse :=
  { status := 400, error := "Account deactivated",
    message := "Your account has been deactivated. Please contact support." }

/-- `POST /api/auth/login` after body validation: find by email (404
path answers `invalidCredentials`), then the active-flag check, then
the password comparison (its `invalidCredentials` is the same value),
then last-login stamp and token issue.  `verify pw hash` abstracts
`user.comparePassword` (modelled from the spec: the hash comparison
lives in the absent `models/User.js`).  Success carries the user id
and the fresh last-login stamp. -/
def login (verify : String → String → Bool) (users : List User)
    (email password : String) (now : Nat) : Except ErrorResponse (Nat × Nat) :=
  match findByEmail users email with
  | none => .error invalidCredentials
  | some u =>
      if !u.isActive then .error accountDeactivated
      else if !(verify password u.password) then .error invalidCredentials
      else .ok (u.id, now)

/-- C5: a login against a missing account and a login with a wrong
password answer the identical `invalidCredentials` value; once the
account is found, a false `isActive` flag answers
`accountDeactivated` before the password is ever compared, so the
outcome is the same under every password verifier. -/
theorem login_collapses_and_checks_deactivation_first
    (verify verify' : String → String → Bool) (users : List User)
    (email pw : String) (now : Nat) :
    (findByEmail users email = none →
      login verify users email pw now = .error invalidCredentials)
    ∧ (∀ u, findByEmail users email = some u → u.isActive = true →
        verify pw u.password = false →
        login verify users email pw now = .error invalidCredentials)
    ∧ (∀ u, findByEmail users email = some u → u.isActive = false →
        login verify users email pw now = .error accountDeactivated
        ∧ login verify users email pw now = login verify' users email pw now) := by
  refine ⟨fun h => ?_, fun u hu hact hv => ?_, fun u hu hact => ?_⟩
  · simp [login, h]
  · simp [login, hu, hact, hv]
  · constructor <;> simp [login, hu, hact]

/-- The constant success message of `POST /api/auth/forgot-password`
(routes line 609). -/
def forgotPasswordMessage : String :=
  "If an account with that email exists, a password reset link has been sent."

/-- `POST /api/auth/forgot-password` after validation (routes lines
600-619): looks the user up, always answers the same message; the
lookup result only drives a server-side log, and nothing is stored. -/
def forgotPassword (users : List User) (email : String) : String × List User :=
  let _user := findByEmail users email
  (forgotPasswordMessage, users)

/-- C7: the forgot-password response is one constant message,
independent of whether any account matches the email (the same
observable answer over any two user collections), and the user store
is left exactly as it was. -/
theorem forgot_password_constant_and_stateless :
    (∀ (users1 users2 : List User) (email1 email2 : String),
      (forgotPassword users1 email1).1 = (forgotPassword users2 email2).1)
    ∧ (∀ (users : List User) (email : String),
      (forgotPassword users email).2 = users) :=
  ⟨fun _ _ _ _ => rfl, fun _ _ => rfl⟩

/-- A hexadecimal digit, as the color pattern
`/^#([A-Fa-f0-9]{6}|[A-Fa-f0-9]{3})$/` accepts it. -/
def isHexDigit (c : Char) : Bool :=
  ('0' ≤ c && c ≤ '9') || ('a' ≤ c && c ≤ 'f') || ('A' ≤ c && c ≤ 'F')

/-- The color pattern: `#` followed by exactly six or exactly three hex
digits. -/
def isHexColor (s : String) : Bool :=
  match s.data with
  | '#' :: rest => (rest.length == 6 || rest.length == 3) && rest.all isHexDigit
  | _ => false

/-- The body of `POST /api/notes`; `category` in the enumeration is
enforced by the type, `tags` and `color` may be absent. -/
structure CreateBody where
  title : String
  content : String
  category : Category
  tags : Option (List String) := none
  color : Option String := none
deriving DecidableEq, Repr

/-- Modelled from the spec: `middleware/validation.js` is not among the
repository's files; the spec's HTTP surface answers the standard
error envelope for field validation problems. -/
def validationFailed : ErrorResponse :=
  { status := 400, error := "Validation failed", message := "Invalid input data" }

/-- `createNoteValidation` (routes lines 10-41): trimmed title length
1..200, trimmed content length 1..10000, at most 10 tags with each
trimmed tag at most 30 characters, optional color matching the hex
pattern. -/
def createNoteValid (b : CreateBody) : Bool :=
  (decide (1 ≤ (jsTrim b.title).length) && decide ((jsTrim b.title).length ≤ 200))
    && (decide (1 ≤ (jsTrim b.content).length) && decide ((jsTrim b.content).length ≤ 10000))
    && (match b.tags with
        | some ts => decide (ts.length ≤ 10) && ts.all (fun t => decide ((jsTrim t).length ≤ 30))
        | none => true)
    && (match b.color with
        | some c => isHexColor c
        | none => true)

/-- The handler's tag normalization (routes line 260):
`tags ? tags.map(tag => tag.trim()).filter(tag => tag) : []` — each
tag trimmed, tags empty after trimming dropped, nothing deduplicated. -/
def storedTags (tags : Option (List String)) : List String :=
  match tags with
  | none => []
  | some ts => (ts.map jsTrim).filter (fun t => t ≠ "")

/-- `POST /api/notes` after auth: on validation failure the error
envelope; otherwise a new document with trimmed title and content,
normalized tags, the schema defaults for the flags and color, owned by
the requester, appended to the collection by the save. -/
def createNote (db : List Note) (uid : Nat) (b : CreateBody) (newId now : Nat) :
    Except ErrorResponse (Note × List Note) :=
  if createNoteValid b then
    let n : Note :=
      { id := newId, title := jsTrim b.title, content := jsTrim b.content,
        category := b.category, tags := storedTags b.tags,
        isPinned := false, isArchived := false,
        color := b.color.getD "#ffffff",
        userId := uid, createdAt := now, updatedAt := now }
    .ok (n, db ++ [n])
  else .error validationFailed

/-- C8: more than 10 tags fails creation validation while exactly 10
(each within the 30-character bound, the rest of the body valid)
succeeds; every stored tag is trimmed and tags empty after trimming
are dropped; duplicates are kept (no deduplication). -/
theorem create_tags_validation_and_normalization
    (db : List Note) (uid newId now : Nat) (b : CreateBody) :
    (∀ ts, b.tags = some ts → ts.length > 10 →
      createNote db uid b newId now = .error validationFailed)
    ∧ (∀ n db2, createNote db uid b newId now = .ok (n, db2) →
      n.tags = storedTags b.tags)
    ∧ (∀ ts, b.tags = some ts → ts.length = 10 →
      ts.all (fun t => decide ((jsTrim t).length ≤ 30)) = true →
      createNoteValid { b with tags := none } = true →
      ∃ db2, createNote db uid b newId now =
        .ok ({ id := newId, title := jsTrim b.title, content := jsTrim b.content,
               category := b.category,
               tags := (ts.map jsTrim).filter (fun t => t ≠ ""),
               isPinned := false, isArchived := false,
               color := b.color.getD "#ffffff",
               userId := uid, createdAt := now, updatedAt := now }, db2))
    ∧ storedTags (some ["dup", "dup", " pad ", "", "x"]) = ["dup", "dup", "pad", "x"] := by
  refine ⟨fun ts hts hlen => ?_, fun n db2 h => ?_, fun ts hts hlen hall hrest => ?_, by decide⟩
  · have hval : createNoteValid b = false := by
      unfold createNoteValid
      rw [hts]
      simp [decide_eq_false (by omega : ¬ ts.length ≤ 10)]
    simp [createNote, hval]
  · unfold createNote at h
    split at h
    · simp only [Except.ok.injEq, Prod.mk.injEq] at h
      rw [← h.1]
    · exact absurd h (by simp)
  · have hval : createNoteValid b = true := by
      unfold createNoteValid
      rw [hts]
      unfold createNoteValid at hrest
      simp only [Bool.and_eq_true] at hrest ⊢
      exact ⟨⟨⟨hrest.1.1.1, hrest.1.1.2⟩, by
        simp [hall, decide_eq_true (by omega : ts.length ≤ 10)]⟩, hrest.2⟩
    refine ⟨db ++ [{ id := newId, title := jsTrim b.title, content := jsTrim b.content, category := b.category, tags := (ts.map jsTrim).filter (fun t => t ≠ ""), isPinned := false, isArchived := false, color := b.color.getD "#ffffff", userId := uid, createdAt := now, updatedAt := now }], ?_⟩
    simp [createNote, hval, storedTags, hts]

end MernNotes
